import Mathlib

/-!
Verification of the structural parsing core of the lizard repository
(src/lizard_languages/go.py, golike.py, java.py): a shallow embedding of
the token-driven state machines together with proofs about the events
they emit to the external Context collaborator.
-/

set_option maxRecDepth 10000

namespace Lizard

/-- Whitespace test matching Python's str.strip default set (space, tab,
newline, carriage return, vertical tab, form feed). -/
def pySpace (c : Char) : Bool :=
  c = ' ' ∨ c = '\t' ∨ c = '\n' ∨ c = '\r' ∨ c = Char.ofNat 11 ∨ c = Char.ofNat 12

/-- Python's `s.strip()`: remove leading and trailing whitespace. -/
def pyStrip (s : String) : String :=
  String.mk (((s.data.dropWhile pySpace).reverse.dropWhile pySpace).reverse)

/-- Python's `sep.join(xs)`. -/
def pyJoin (sep : String) : List String → String
  | [] => ""
  | [x] => x
  | x :: y :: xs => x ++ sep ++ pyJoin sep (y :: xs)

/-- Python's substring test `token in '()'`: true exactly for the substrings
of the two-character string, namely `""`, `"("`, `")"` and `"()"`. -/
def inParenChars (t : String) : Bool :=
  t = "" ∨ t = "(" ∨ t = ")" ∨ t = "()"

/-- Structural events emitted to the external Context collaborator:
function opened, one parameter token recorded, function closed. -/
inductive Event where
  | openF (name : String)
  | paramF (tok : String)
  | closeF
deriving DecidableEq, Repr

/-- Modelled from the spec: the function record owned by the external
Context (spec section 3) — name, qualified long name, and the ordered
list of parameter tokens appended by `addParameter`. The Context itself
is absent from src/. -/
structure FunctionRecord where
  name : String
  long_name : String
  params : List String
deriving DecidableEq, Repr

/-- Modelled from the spec: the sentinel bottom entry of the Context's
function stack representing file/global scope (spec section 3). -/
def globalRecord : FunctionRecord :=
  ⟨"*global*", "*global*", []⟩

/-- Modelled from the spec: the external Context collaborator (spec
section 6), absent from src/. It owns the current function record, the
stack of suspended enclosing records, the list of closed records in
closing order, and the ordered event trace. -/
structure Ctx where
  current : FunctionRecord
  stacked : List FunctionRecord
  closed : List FunctionRecord
  trace : List Event
deriving DecidableEq, Repr

/-- Modelled from the spec: initial Context, current function being the
global sentinel. -/
def ctxInit : Ctx :=
  ⟨globalRecord, [], [], []⟩

/-- Modelled from the spec: `openFunction(name)` — creates and pushes a
function record which becomes the current function. -/
def Ctx.pushNewFunction (c : Ctx) (n : String) : Ctx :=
  ⟨⟨n, n, []⟩, c.current :: c.stacked, c.closed, c.trace ++ [Event.openF n]⟩

/-- Modelled from the spec: `closeFunction()` — finalizes and pops the
current function; the enclosing suspended record becomes current again
(the global sentinel if none is left). -/
def Ctx.endOfFunction (c : Ctx) : Ctx :=
  ⟨c.stacked.headD globalRecord, c.stacked.tail, c.closed ++ [c.current],
    c.trace ++ [Event.closeF]⟩

/-- Modelled from the spec: `addParameter(token)` — appends one formal
parameter token to the current function. -/
def Ctx.parameter (c : Ctx) (t : String) : Ctx :=
  ⟨⟨c.current.name, c.current.long_name, c.current.params ++ [t]⟩,
    c.stacked, c.closed, c.trace ++ [Event.paramF t]⟩

/-- Modelled from the spec: `setQualifiedName(name)` — sets the current
function's full/long display name. -/
def Ctx.setLongName (c : Ctx) (n : String) : Ctx :=
  ⟨⟨c.current.name, n, c.current.params⟩, c.stacked, c.closed, c.trace⟩

/-- Modelled from the spec: name collection — appends a token to both the
current function's name and its long name. -/
def Ctx.addToFunctionName (c : Ctx) (t : String) : Ctx :=
  ⟨⟨c.current.name ++ t, c.current.long_name ++ t, c.current.params⟩,
    c.stacked, c.closed, c.trace⟩

/-- Modelled from the spec: appends a token to the current function's long
name only. -/
def Ctx.addToLongFunctionName (c : Ctx) (t : String) : Ctx :=
  ⟨⟨c.current.name, c.current.long_name ++ t, c.current.params⟩,
    c.stacked, c.closed, c.trace⟩

/-- Modelled from the spec: the number of formal parameters held by a
record. Per spec section 8 Scenario A the tokens `a`, `int` of one formal
parameter count once, so formal parameters are the comma-separated groups
of the appended parameter tokens. -/
def FunctionRecord.paramCount (r : FunctionRecord) : Nat :=
  match r.params with
  | [] => 0
  | ps => ps.count "," + 1

/-- States of the Go state machine `GoStates` of src/lizard_languages/go.py
(inheriting the type-declaration states of GoLikeStates from golike.py).
Bracket-consuming states carry their balance counter. -/
inductive GoState where
  | Global
  | AfterFunc
  | CollectRecv
  | AfterRecv
  | CheckParams
  | ExpectFuncDec
  | FunctionDec (n : Int)
  | AfterParams
  | TypeParams (n : Int)
  | MultiReturn (n : Int)
  | ReadReturnType
  | InterfaceRet (n : Int)
  | FunctionType (n : Int)
  | ArrayRet (n : Int)
  | ExpectFuncImpl
  | FunctionImpl
  | TypeDef
  | AfterTypeName
  | StructBody (n : Int)
  | InterfaceBody (n : Int)
deriving DecidableEq, Repr

/-- Engine-level action requested by a state handler: push a plain nested
sub-machine (brace block), push a sub-machine whose completion callback
closes the current function, pop the current sub-machine, or none. -/
inductive GoAct where
  | none
  | pushPlain
  | pushFn
  | pop
deriving DecidableEq, Repr

/-- Result of one handler application: new state, the machine's collected
token buffer, the possible function name, the updated Context and the
requested engine action. -/
structure GoRes where
  st : GoState
  col : List String
  pos : Option String
  ctx : Ctx
  act : GoAct
deriving DecidableEq, Repr

/-- Bracket delta used by the balanced-bracket combinator: +1 on the open
token, -1 on the close token. -/
def brDelta (op cl t : String) : Int :=
  if t = op then 1 else if t = cl then -1 else 0

/-- Embedding of `GoStates._function_impl` (go.py): push a fresh nested
machine whose completion callback emits the function-closed event and
resets the parent to the global state. -/
def goFunctionImpl (col : List String) (pos : Option String) (ctx : Ctx)
    (_t : String) : GoRes :=
  ⟨.FunctionImpl, col, pos, ctx, .pushFn⟩

/-- Embedding of `GoStates._function_dec` (go.py): balanced `()` reading
ending in the after-parameters state, recording every token that is not a
substring of `"()"` as a parameter. -/
def goFunctionDec (n : Int) (col : List String) (pos : Option String)
    (ctx : Ctx) (t : String) : GoRes :=
  let n2 := n + brDelta "(" ")" t
  let st := if n2 = 0 then GoState.AfterParams else .FunctionDec n2
  let ctx2 := if inParenChars t then ctx else ctx.parameter t
  ⟨st, col, pos, ctx2, .none⟩

/-- Embedding of `GoStates._read_type_parameters` (go.py): balanced `<>`
reading ending in the after-parameters state. -/
def goTypeParams (n : Int) (col : List String) (pos : Option String)
    (ctx : Ctx) (t : String) : GoRes :=
  let n2 := n + brDelta "<" ">" t
  ⟨if n2 = 0 then GoState.AfterParams else .TypeParams n2, col, pos, ctx, .none⟩

/-- Embedding of `GoStates._multi_return_type` (go.py): balanced `()`
reading ending in the expect-function-implementation state. -/
def goMultiReturn (n : Int) (col : List String) (pos : Option String)
    (ctx : Ctx) (t : String) : GoRes :=
  let n2 := n + brDelta "(" ")" t
  ⟨if n2 = 0 then GoState.ExpectFuncImpl else .MultiReturn n2, col, pos, ctx, .none⟩

/-- Embedding of `GoStates._interface_return_type` (go.py): balanced `{}`
reading ending in the expect-function-implementation state. -/
def goInterfaceRet (n : Int) (col : List String) (pos : Option String)
    (ctx : Ctx) (t : String) : GoRes :=
  let n2 := n + brDelta "\x7b" "\x7d" t
  ⟨if n2 = 0 then GoState.ExpectFuncImpl else .InterfaceRet n2, col, pos, ctx, .none⟩

/-- Embedding of `GoStates._function_type` (go.py): balanced `()` reading
ending in the expect-function-implementation state. -/
def goFunctionType (n : Int) (col : List String) (pos : Option String)
    (ctx : Ctx) (t : String) : GoRes :=
  let n2 := n + brDelta "(" ")" t
  ⟨if n2 = 0 then GoState.ExpectFuncImpl else .FunctionType n2, col, pos, ctx, .none⟩

/-- Embedding of `GoStates._array_return_type` (go.py): balanced `[]`
reading ending back in the read-return-type state. -/
def goArrayRet (n : Int) (col : List String) (pos : Option String)
    (ctx : Ctx) (t : String) : GoRes :=
  let n2 := n + brDelta "[" "]" t
  ⟨if n2 = 0 then GoState.ReadReturnType else .ArrayRet n2, col, pos, ctx, .none⟩

/-- Embedding of `GoStates._read_return_type` (go.py). -/
def goReadReturnType (col : List String) (pos : Option String) (ctx : Ctx)
    (t : String) : GoRes :=
  if t = "\x7b" then goFunctionImpl col pos ctx t
  else if t = "(" then goMultiReturn 0 col pos ctx t
  else if t = "interface" then ⟨.InterfaceRet 0, col, pos, ctx, .none⟩
  else if t = "func" then ⟨.FunctionType 0, col, pos, ctx, .none⟩
  else if t = "[" then goArrayRet 0 col pos ctx t
  else ⟨.ReadReturnType, col, pos, ctx, .none⟩

/-- Embedding of `GoStates._after_parameters` (go.py). -/
def goAfterParams (col : List String) (pos : Option String) (ctx : Ctx)
    (t : String) : GoRes :=
  if t = "<" then ⟨.TypeParams 0, col, pos, ctx, .none⟩
  else if t = "(" then goMultiReturn 0 col pos ctx t
  else if t = "\x7b" then goFunctionImpl col pos ctx t
  else if t ≠ "" then goReadReturnType col pos ctx t
  else ⟨.ExpectFuncImpl, col, pos, ctx, .none⟩

/-- Embedding of `GoStates._expect_function_impl` (go.py). -/
def goExpectFuncImpl (col : List String) (pos : Option String) (ctx : Ctx)
    (t : String) : GoRes :=
  if t = "interface" then ⟨.InterfaceRet 0, col, pos, ctx, .none⟩
  else if t = "\x7b" then goFunctionImpl col pos ctx t
  else ⟨.ExpectFuncImpl, col, pos, ctx, .none⟩

/-- Embedding of `GoStates._expect_function_dec` (go.py). -/
def goExpectFuncDec (col : List String) (pos : Option String) (ctx : Ctx)
    (t : String) : GoRes :=
  if t = "(" then goFunctionDec 0 col pos ctx t
  else goAfterParams col pos ctx t

/-- Embedding of `GoStates._check_for_parameters` (go.py): on `(` the
tentative name is confirmed as a function whose long name carries the
space-joined receiver buffer; otherwise fall back to an anonymous function
whose single parameter is the buffer joined without separator (if
nonempty after stripping), clearing the buffer. -/
def goCheckParams (col : List String) (pos : Option String) (ctx : Ctx)
    (t : String) : GoRes :=
  if t = "(" then
    let name := pos.getD ""
    let receiver := pyStrip (pyJoin " " col)
    let ln := if receiver ≠ "" then "(" ++ receiver ++ ")" ++ name else name
    let ctx2 := (ctx.pushNewFunction name).setLongName ln
    goFunctionDec 0 col pos ctx2 t
  else
    let ctx2 := (ctx.pushNewFunction "(anonymous)").setLongName "(anonymous)"
    let ps := pyStrip (pyJoin "" col)
    let ctx3 := if ps ≠ "" then ctx2.parameter ps else ctx2
    goAfterParams [] pos ctx3 t

/-- Embedding of `GoStates._after_receiver_or_parameters` (go.py): skip a
backtick; any token outside `{`, `(`, `)`, `func` becomes the possible
function name; otherwise open an anonymous function whose single parameter
is the space-joined buffer (if nonempty after stripping) and re-deliver
the token to the after-parameters state. -/
def goAfterRecv (col : List String) (pos : Option String) (ctx : Ctx)
    (t : String) : GoRes :=
  if t = "`" then ⟨.AfterRecv, col, pos, ctx, .none⟩
  else if t ≠ "\x7b" ∧ t ≠ "(" ∧ t ≠ ")" ∧ t ≠ "func" then
    ⟨.CheckParams, col, some t, ctx, .none⟩
  else
    let ctx2 := ctx.pushNewFunction "(anonymous)"
    let ps := pyStrip (pyJoin " " col)
    let ctx3 := if ps ≠ "" then ctx2.parameter ps else ctx2
    goAfterParams col pos ctx3 t

/-- Embedding of `GoStates._collect_receiver_or_parameters` (go.py): every
token before the first `)` is buffered; the first `)` ends collection. -/
def goCollectRecv (col : List String) (pos : Option String) (ctx : Ctx)
    (t : String) : GoRes :=
  if t = ")" then ⟨.AfterRecv, col, pos, ctx, .none⟩
  else ⟨.CollectRecv, col ++ [t], pos, ctx, .none⟩

/-- Embedding of `GoStates._after_func` (go.py). -/
def goAfterFunc (col : List String) (pos : Option String) (ctx : Ctx)
    (t : String) : GoRes :=
  if t = "(" then ⟨.CollectRecv, [], pos, ctx, .none⟩
  else if t ≠ "\x7b" ∧ t ≠ "" then
    ⟨.ExpectFuncDec, col, pos, (ctx.pushNewFunction t).setLongName t, .none⟩
  else
    let ctx2 := (ctx.pushNewFunction "(anonymous)").setLongName "(anonymous)"
    goAfterParams col pos ctx2 t

/-- Embedding of `GoStates._state_global` (go.py); tokens other than
`func`, `type`, `{`, `}` fall through to the base handler, which has no
further effect for them. -/
def goGlobal (col : List String) (pos : Option String) (ctx : Ctx)
    (t : String) : GoRes :=
  if t = "func" then ⟨.AfterFunc, col, pos, ctx, .none⟩
  else if t = "type" then ⟨.TypeDef, col, pos, ctx, .none⟩
  else if t = "\x7b" then ⟨.Global, col, pos, ctx, .pushPlain⟩
  else if t = "\x7d" then ⟨.Global, col, pos, ctx, .pop⟩
  else ⟨.Global, col, pos, ctx, .none⟩

/-- Embedding of `GoLikeStates._type_definition` (golike.py). -/
def goTypeDef (col : List String) (pos : Option String) (ctx : Ctx)
    (_t : String) : GoRes :=
  ⟨.AfterTypeName, col, pos, ctx, .none⟩

/-- Embedding of `GoLikeStates._after_type_name` (golike.py). -/
def goAfterTypeName (col : List String) (pos : Option String) (ctx : Ctx)
    (t : String) : GoRes :=
  if t = "struct" then ⟨.StructBody 0, col, pos, ctx, .none⟩
  else if t = "interface" then ⟨.InterfaceBody 0, col, pos, ctx, .none⟩
  else ⟨.Global, col, pos, ctx, .none⟩

/-- Embedding of `GoLikeStates._struct_definition` (golike.py): balanced
`{}` reading ending in the global state. -/
def goStructBody (n : Int) (col : List String) (pos : Option String)
    (ctx : Ctx) (t : String) : GoRes :=
  let n2 := n + brDelta "\x7b" "\x7d" t
  ⟨if n2 = 0 then GoState.Global else .StructBody n2, col, pos, ctx, .none⟩

/-- Embedding of `GoLikeStates._interface_definition` (golike.py):
balanced `{}` reading ending in the global state. -/
def goInterfaceBody (n : Int) (col : List String) (pos : Option String)
    (ctx : Ctx) (t : String) : GoRes :=
  let n2 := n + brDelta "\x7b" "\x7d" t
  ⟨if n2 = 0 then GoState.Global else .InterfaceBody n2, col, pos, ctx, .none⟩

/-- Dispatch of one token to the handler of the current state of a
`GoStates` machine instance. -/
def goHandle : GoState → List String → Option String → Ctx → String → GoRes
  | .Global, col, pos, ctx, t => goGlobal col pos ctx t
  | .AfterFunc, col, pos, ctx, t => goAfterFunc col pos ctx t
  | .CollectRecv, col, pos, ctx, t => goCollectRecv col pos ctx t
  | .AfterRecv, col, pos, ctx, t => goAfterRecv col pos ctx t
  | .CheckParams, col, pos, ctx, t => goCheckParams col pos ctx t
  | .ExpectFuncDec, col, pos, ctx, t => goExpectFuncDec col pos ctx t
  | .FunctionDec n, col, pos, ctx, t => goFunctionDec n col pos ctx t
  | .AfterParams, col, pos, ctx, t => goAfterParams col pos ctx t
  | .TypeParams n, col, pos, ctx, t => goTypeParams n col pos ctx t
  | .MultiReturn n, col, pos, ctx, t => goMultiReturn n col pos ctx t
  | .ReadReturnType, col, pos, ctx, t => goReadReturnType col pos ctx t
  | .InterfaceRet n, col, pos, ctx, t => goInterfaceRet n col pos ctx t
  | .FunctionType n, col, pos, ctx, t => goFunctionType n col pos ctx t
  | .ArrayRet n, col, pos, ctx, t => goArrayRet n col pos ctx t
  | .ExpectFuncImpl, col, pos, ctx, t => goExpectFuncImpl col pos ctx t
  | .FunctionImpl, col, pos, ctx, t => goFunctionImpl col pos ctx t
  | .TypeDef, col, pos, ctx, t => goTypeDef col pos ctx t
  | .AfterTypeName, col, pos, ctx, t => goAfterTypeName col pos ctx t
  | .StructBody n, col, pos, ctx, t => goStructBody n col pos ctx t
  | .InterfaceBody n, col, pos, ctx, t => goInterfaceBody n col pos ctx t

/-- One machine instance on the engine stack: its current state, its local
buffers, and whether the completion callback stored when it was pushed
closes the current function (`cb = true` for bodies pushed by the
function-implementation state, `false` for plain brace blocks). -/
structure GoFrame where
  st : GoState
  col : List String
  pos : Option String
  cb : Bool
deriving DecidableEq, Repr

/-- Configuration of the full Go parser: the machine stack (top first,
never empty) and the external Context. -/
structure GoConfig where
  stack : List GoFrame
  ctx : Ctx
deriving DecidableEq, Repr

/-- Initial configuration: a single machine in the global state over the
initial Context. -/
def goInit : GoConfig :=
  ⟨[⟨.Global, [], none, false⟩], ctxInit⟩

/-- Modelled from the spec: the engine (spec section 4.1, absent from
src/) delivers one token to the machine on top of the stack; the handler
may push a fresh sub-machine (with or without a function-closing
completion callback) or request a pop, which runs the popped machine's
callback: emitting the function-closed event and resetting the parent to
the global state. A pop of the base machine leaves it in place. -/
def goAdvance (c : GoConfig) (t : String) : GoConfig :=
  match c.stack with
  | [] => c
  | f :: rest =>
    let r := goHandle f.st f.col f.pos c.ctx t
    match r.act with
    | .none => ⟨⟨r.st, r.col, r.pos, f.cb⟩ :: rest, r.ctx⟩
    | .pushPlain =>
      ⟨⟨.Global, [], none, false⟩ :: ⟨r.st, r.col, r.pos, f.cb⟩ :: rest, r.ctx⟩
    | .pushFn =>
      ⟨⟨.Global, [], none, true⟩ :: ⟨r.st, r.col, r.pos, f.cb⟩ :: rest, r.ctx⟩
    | .pop =>
      match rest with
      | [] => ⟨[⟨r.st, r.col, r.pos, f.cb⟩], r.ctx⟩
      | g :: rest2 =>
        if f.cb then
          ⟨⟨.Global, g.col, g.pos, g.cb⟩ :: rest2, r.ctx.endOfFunction⟩
        else
          ⟨g :: rest2, r.ctx⟩

/-- Feed a list of tokens to the Go parser in order. -/
def goRunMany (ts : List String) (c : GoConfig) : GoConfig :=
  ts.foldl goAdvance c

/-- States of the base Go-family state machine `GoLikeStates` of
src/lizard_languages/golike.py. Bracket-consuming states carry their
balance counter. -/
inductive GlState where
  | Global
  | FunctionName
  | ExpectFuncDec
  | Generalize (n : Int)
  | MemberFunction (n : Int)
  | FunctionDec (n : Int)
  | ExpectFuncImpl
  | FunctionImpl
  | TypeDef
  | AfterTypeName
  | StructBody (n : Int)
  | InterfaceBody (n : Int)
deriving DecidableEq, Repr

/-- Result of one GoLikeStates handler application: new state, updated
Context and requested engine action. -/
structure GlRes where
  st : GlState
  ctx : Ctx
  act : GoAct
deriving DecidableEq, Repr

/-- Embedding of `GoLikeStates._function_impl` (golike.py): push a nested
machine whose completion callback resets the parent to the global state
and emits the function-closed event. -/
def glFunctionImpl (ctx : Ctx) (_t : String) : GlRes :=
  ⟨.FunctionImpl, ctx, .pushFn⟩

/-- Embedding of `GoLikeStates._expect_function_impl` (golike.py): a `{`
starts the body unless the previous token delivered to the machine was
`interface`. -/
def glExpectFuncImpl (lastTok : Option String) (ctx : Ctx) (t : String) : GlRes :=
  if t = "\x7b" ∧ lastTok ≠ some "interface" then glFunctionImpl ctx t
  else ⟨.ExpectFuncImpl, ctx, .none⟩

/-- Embedding of `GoLikeStates._function_dec` (golike.py): balanced `()`
reading ending in the expect-function-implementation state, recording
every token that is not a substring of `"()"` as a parameter. -/
def glFunctionDec (n : Int) (ctx : Ctx) (t : String) : GlRes :=
  let n2 := n + brDelta "(" ")" t
  let st := if n2 = 0 then GlState.ExpectFuncImpl else .FunctionDec n2
  let ctx2 := if inParenChars t then ctx else ctx.parameter t
  ⟨st, ctx2, .none⟩

/-- Embedding of `GoLikeStates._member_function` (golike.py): balanced
`()` reading ending back in the function-name state, appending every
token (brackets included) to the current function's long name. -/
def glMemberFunction (n : Int) (ctx : Ctx) (t : String) : GlRes :=
  let n2 := n + brDelta "(" ")" t
  let st := if n2 = 0 then GlState.FunctionName else .MemberFunction n2
  ⟨st, ctx.addToLongFunctionName t, .none⟩

/-- Embedding of `GoLikeStates._generalize` (golike.py): balanced `<>`
reading ending in the expect-function-declaration state. -/
def glGeneralize (n : Int) (ctx : Ctx) (t : String) : GlRes :=
  let n2 := n + brDelta "<" ">" t
  ⟨if n2 = 0 then GlState.ExpectFuncDec else .Generalize n2, ctx, .none⟩

/-- Embedding of `GoLikeStates._expect_function_dec` (golike.py). -/
def glExpectFuncDec (ctx : Ctx) (t : String) : GlRes :=
  if t = "(" then glFunctionDec 0 ctx t
  else if t = "<" then glGeneralize 0 ctx t
  else ⟨.Global, ctx, .none⟩

/-- Embedding of `GoLikeStates._function_name` (golike.py): a backtick is
skipped; `(` is disambiguated by the Context's function stack — when the
enclosing function is not the global sentinel the token is re-delivered to
the parameter-list state, otherwise to the member-function (receiver)
state; `{` is re-delivered to the expect-implementation state; any other
token is appended to the function name. -/
def glFunctionName (lastTok : Option String) (ctx : Ctx) (t : String) : GlRes :=
  if t = "`" then ⟨.FunctionName, ctx, .none⟩
  else if t = "(" then
    match ctx.stacked with
    | [] => glMemberFunction 0 ctx t
    | h :: _ =>
      if h.name ≠ "*global*" then glFunctionDec 0 ctx t
      else glMemberFunction 0 ctx t
  else if t = "\x7b" then glExpectFuncImpl lastTok ctx t
  else ⟨.ExpectFuncDec, ctx.addToFunctionName t, .none⟩

/-- Embedding of `GoLikeStates._state_global` (golike.py): on the
function keyword a draft function record with the empty name is opened. -/
def glGlobal (ctx : Ctx) (t : String) : GlRes :=
  if t = "func" then ⟨.FunctionName, ctx.pushNewFunction "", .none⟩
  else if t = "type" then ⟨.TypeDef, ctx, .none⟩
  else if t = "\x7b" then ⟨.Global, ctx, .pushPlain⟩
  else if t = "\x7d" then ⟨.Global, ctx, .pop⟩
  else ⟨.Global, ctx, .none⟩

/-- Embedding of `GoLikeStates._type_definition` (golike.py). -/
def glTypeDef (ctx : Ctx) (_t : String) : GlRes :=
  ⟨.AfterTypeName, ctx, .none⟩

/-- Embedding of `GoLikeStates._after_type_name` (golike.py). -/
def glAfterTypeName (ctx : Ctx) (t : String) : GlRes :=
  if t = "struct" then ⟨.StructBody 0, ctx, .none⟩
  else if t = "interface" then ⟨.InterfaceBody 0, ctx, .none⟩
  else ⟨.Global, ctx, .none⟩

/-- Embedding of `GoLikeStates._struct_definition` (golike.py). -/
def glStructBody (n : Int) (ctx : Ctx) (t : String) : GlRes :=
  let n2 := n + brDelta "\x7b" "\x7d" t
  ⟨if n2 = 0 then GlState.Global else .StructBody n2, ctx, .none⟩

/-- Embedding of `GoLikeStates._interface_definition` (golike.py). -/
def glInterfaceBody (n : Int) (ctx : Ctx) (t : String) : GlRes :=
  let n2 := n + brDelta "\x7b" "\x7d" t
  ⟨if n2 = 0 then GlState.Global else .InterfaceBody n2, ctx, .none⟩

/-- Dispatch of one token to the handler of the current state of a
`GoLikeStates` machine instance. -/
def glHandle (lastTok : Option String) :
    GlState → Ctx → String → GlRes
  | .Global, ctx, t => glGlobal ctx t
  | .FunctionName, ctx, t => glFunctionName lastTok ctx t
  | .ExpectFuncDec, ctx, t => glExpectFuncDec ctx t
  | .Generalize n, ctx, t => glGeneralize n ctx t
  | .MemberFunction n, ctx, t => glMemberFunction n ctx t
  | .FunctionDec n, ctx, t => glFunctionDec n ctx t
  | .ExpectFuncImpl, ctx, t => glExpectFuncImpl lastTok ctx t
  | .FunctionImpl, ctx, t => glFunctionImpl ctx t
  | .TypeDef, ctx, t => glTypeDef ctx t
  | .AfterTypeName, ctx, t => glAfterTypeName ctx t
  | .StructBody n, ctx, t => glStructBody n ctx t
  | .InterfaceBody n, ctx, t => glInterfaceBody n ctx t

/-- One GoLikeStates machine instance on the engine stack: its state and
whether its completion callback closes the current function. -/
structure GlFrame where
  st : GlState
  cb : Bool
deriving DecidableEq, Repr

/-- Configuration of the base Go-family parser: the machine stack (top
first), the external Context, and the last token delivered (shared by
every machine on the stack, as each one records every token). -/
structure GlConfig where
  stack : List GlFrame
  ctx : Ctx
  lastTok : Option String
deriving DecidableEq, Repr

/-- Initial configuration of the base Go-family parser. -/
def glInit : GlConfig :=
  ⟨[⟨.Global, false⟩], ctxInit, none⟩

/-- Modelled from the spec: engine stepping for the base Go-family
machine, as for the Go machine; after the handler runs, the delivered
token is recorded as the last token. -/
def glAdvance (c : GlConfig) (t : String) : GlConfig :=
  match c.stack with
  | [] => c
  | f :: rest =>
    let r := glHandle c.lastTok f.st c.ctx t
    match r.act with
    | .none => ⟨⟨r.st, f.cb⟩ :: rest, r.ctx, some t⟩
    | .pushPlain => ⟨⟨.Global, false⟩ :: ⟨r.st, f.cb⟩ :: rest, r.ctx, some t⟩
    | .pushFn => ⟨⟨.Global, true⟩ :: ⟨r.st, f.cb⟩ :: rest, r.ctx, some t⟩
    | .pop =>
      match rest with
      | [] => ⟨[⟨r.st, f.cb⟩], r.ctx, some t⟩
      | g :: rest2 =>
        if f.cb then ⟨⟨.Global, g.cb⟩ :: rest2, r.ctx.endOfFunction, some t⟩
        else ⟨g :: rest2, r.ctx, some t⟩

/-- Feed a list of tokens to the base Go-family parser in order. -/
def glRunMany (ts : List String) (c : GlConfig) : GlConfig :=
  ts.foldl glAdvance c

/-- States contributed by `JavaStates` of src/lizard_languages/java.py on
top of an abstract C-family base grammar with state type `σ`: either a
base-grammar state, or one of the two annotation-consuming states. -/
inductive JState (σ : Type) where
  | base (s : σ)
  | dec
  | postdec
deriving DecidableEq

/-- Embedding of `JavaStates` (java.py) over an abstract base grammar
with global state `glob` and transition `bstep` (the C-family base
grammar is outside src/, so it is kept abstract): in the global state an
`@` token moves to the decorator state without consulting the base; the
decorator state consumes one token; the post-decorator state continues on
`.` and otherwise re-delivers the token to the global state. -/
def javaStep {σ : Type} [DecidableEq σ] (glob : σ)
    (bstep : σ → String → σ × List Event) :
    JState σ → String → JState σ × List Event
  | .base s, t =>
    if s = glob ∧ t = "@" then (.dec, [])
    else ((JState.base (bstep s t).1), (bstep s t).2)
  | .dec, _ => (.postdec, [])
  | .postdec, t =>
    if t = "." then (.dec, [])
    else if t = "@" then (.dec, [])
    else ((JState.base (bstep glob t).1), (bstep glob t).2)

/-- Feed a list of tokens to the Java machine, accumulating events. -/
def javaRunMany {σ : Type} [DecidableEq σ] (glob : σ)
    (bstep : σ → String → σ × List Event) :
    List String → JState σ × List Event → JState σ × List Event
  | [], p => p
  | t :: ts, (s, evs) =>
    let r := javaStep glob bstep s t
    javaRunMany glob bstep ts (r.1, evs ++ r.2)

/-- Token list of a dotted annotation tail: for parts `[p1, ..., pn]` the
tokens `., p1, ., p2, ..., ., pn`. -/
def dottedTail (parts : List String) : List String :=
  parts.flatMap (fun p => ["."] ++ [p])

/-- Running surplus of function-opened over function-closed events along a
trace, starting from `k` pending opens; `none` when a closed event
arrives with no pending open. -/
def countFrom : Nat → List Event → Option Nat
  | k, [] => some k
  | k, Event.openF _ :: r => countFrom (k + 1) r
  | k, Event.paramF _ :: r => countFrom k r
  | 0, Event.closeF :: _ => none
  | k + 1, Event.closeF :: r => countFrom k r

/-- Stack-based matching of close events to open events in a trace,
indexed by event position: each close event is paired with the most
recent still-open open event. -/
def matchAux : Nat → List Nat → List Event → List (Nat × Nat)
  | _, _, [] => []
  | i, stk, Event.openF _ :: r => matchAux (i + 1) (i :: stk) r
  | i, stk, Event.paramF _ :: r => matchAux (i + 1) stk r
  | i, [], Event.closeF :: r => matchAux (i + 1) [] r
  | i, j :: stk, Event.closeF :: r => (j, i) :: matchAux (i + 1) stk r

/-- Matched (open position, close position) pairs of a trace, in closing
order. -/
def matchPairs (t : List Event) : List (Nat × Nat) :=
  matchAux 0 [] t

/-- States of the Go machine in which a function-opened event has been
emitted for the declaration being parsed while its body machine has not
yet been pushed. -/
def postOpen : GoState → Bool
  | .ExpectFuncDec => true
  | .AfterParams => true
  | .ReadReturnType => true
  | .ExpectFuncImpl => true
  | .FunctionImpl => true
  | .FunctionDec _ => true
  | .TypeParams _ => true
  | .MultiReturn _ => true
  | .InterfaceRet _ => true
  | .FunctionType _ => true
  | .ArrayRet _ => true
  | _ => false

/-- Numeric weight of a post-open state. -/
def headPostB (s : GoState) : Nat :=
  if postOpen s then 1 else 0

/-- Weight of the machine stack's top state. -/
def headPost : List GoFrame → Nat
  | [] => 0
  | f :: _ => headPostB f.st

/-- Number of machines on the stack whose completion callback closes a
function. -/
def cbCount (fs : List GoFrame) : Nat :=
  fs.countP (fun f => f.cb)

/-- Structural well-formedness of the machine stack: below a machine
pushed without a callback the parent rests in the global state, below one
pushed with a function-closing callback the parent rests in the
function-implementation state. -/
def stackOK : List GoFrame → Prop
  | [] => True
  | [_] => True
  | f :: g :: rest =>
    (f.cb = true → g.st = GoState.FunctionImpl) ∧
    (f.cb = false → g.st = GoState.Global) ∧ stackOK (g :: rest)

/-- Invariant of reachable Go parser configurations: the stack is
nonempty and well-formed, and the trace's open/close surplus covers every
pending function-closing callback plus a function currently opened on
top. -/
def goInv (c : GoConfig) : Prop :=
  c.stack ≠ [] ∧ stackOK c.stack ∧
  ∃ k, countFrom 0 c.ctx.trace = some k ∧ cbCount c.stack + headPost c.stack ≤ k

/-- The trace of `c2` extends that of `c1` by events containing exactly
`d` open events and no close event, stated through the surplus counter. -/
def traceOpens (c1 c2 : Ctx) (d : Nat) : Prop :=
  ∀ k j, countFrom k c1.trace = some j → countFrom k c2.trace = some (j + d)

/-- Specification of one handler application used by the invariant proof:
the Context only gains open (never close) events, the post-open weight
grows at most by the number of opens, a plain push leaves the parent in
the global state, and a function-body push leaves the parent in the
function-implementation state with an open available for its callback. -/
def resOK (stIn : GoState) (ctxIn : Ctx) (r : GoRes) : Prop :=
  ∃ d, traceOpens ctxIn r.ctx d ∧ headPostB r.st ≤ headPostB stIn + d ∧
    (r.act = GoAct.pushPlain → r.st = GoState.Global) ∧
    (r.act = GoAct.pushFn → r.st = GoState.FunctionImpl ∧ 1 ≤ headPostB stIn + d)

theorem countFrom_append (l s : List Event) :
    ∀ k, countFrom k (l ++ s) = (countFrom k l).bind (fun j => countFrom j s) := by
  induction l with
  | nil => intro k; simp [countFrom]
  | cons e r ih =>
    intro k
    cases e with
    | openF n => simpa [countFrom] using ih (k + 1)
    | paramF p => simpa [countFrom] using ih k
    | closeF =>
      cases k with
      | zero => simp [countFrom]
      | succ m => simpa [countFrom] using ih m

theorem traceOpens_refl (c : Ctx) : traceOpens c c 0 := by
  intro k j h
  simpa using h

theorem traceOpens_trans {a b c : Ctx} {d1 d2 : Nat}
    (h1 : traceOpens a b d1) (h2 : traceOpens b c d2) :
    traceOpens a c (d1 + d2) := by
  intro k j h
  have hb := h1 k j h
  have hc := h2 k (j + d1) hb
  simpa [Nat.add_assoc] using hc

theorem traceOpens_of_eq {a b : Ctx} {d1 d2 : Nat}
    (h : traceOpens a b d1) (he : d1 = d2) : traceOpens a b d2 := by
  subst he; exact h

theorem traceOpens_pushNewFunction (c : Ctx) (n : String) :
    traceOpens c (c.pushNewFunction n) 1 := by
  intro k j h
  show countFrom k (c.trace ++ [Event.openF n]) = some (j + 1)
  rw [countFrom_append, h]
  simp [countFrom]

theorem traceOpens_parameter (c : Ctx) (p : String) :
    traceOpens c (c.parameter p) 0 := by
  intro k j h
  show countFrom k (c.trace ++ [Event.paramF p]) = some (j + 0)
  rw [countFrom_append, h]
  simp [countFrom]

theorem traceOpens_setLongName (c : Ctx) (n : String) :
    traceOpens c (c.setLongName n) 0 := by
  intro k j h
  simpa [Ctx.setLongName] using h

theorem headPostB_le_one (s : GoState) : headPostB s ≤ 1 := by
  unfold headPostB
  split <;> omega

theorem stackOK_replaceHead {f : GoFrame} {rest : List GoFrame}
    (h : stackOK (f :: rest)) (s : GoState) (col : List String)
    (pos : Option String) :
    stackOK (⟨s, col, pos, f.cb⟩ :: rest) := by
  cases rest with
  | nil => trivial
  | cons g r => exact h

theorem resOK_mono {s1 s2 : GoState} {ctx : Ctx} {r : GoRes}
    (h : resOK s2 ctx r) (hle : headPostB s2 ≤ headPostB s1) :
    resOK s1 ctx r := by
  obtain ⟨d, hto, hh, hp, hf⟩ := h
  exact ⟨d, hto, by omega, hp, fun ha => ⟨(hf ha).1, by have := (hf ha).2; omega⟩⟩

theorem resOK_open_chain {s1 s2 : GoState} {ctx ctx2 : Ctx} {r : GoRes}
    (h : resOK s2 ctx2 r) (h1 : traceOpens ctx ctx2 1) :
    resOK s1 ctx r := by
  obtain ⟨d, hto, hh, hp, hf⟩ := h
  have hb := headPostB_le_one s2
  exact ⟨1 + d, traceOpens_trans h1 hto, by omega, hp,
    fun ha => ⟨(hf ha).1, by omega⟩⟩

theorem goCollectRecv_ok (col : List String) (pos : Option String)
    (ctx : Ctx) (t : String) :
    resOK GoState.CollectRecv ctx (goCollectRecv col pos ctx t) := by
  unfold goCollectRecv
  split_ifs <;> exact ⟨0, traceOpens_refl _, by simp [headPostB, postOpen], by simp, by simp [headPostB, postOpen]⟩

theorem goTypeDef_ok (col : List String) (pos : Option String)
    (ctx : Ctx) (t : String) :
    resOK GoState.TypeDef ctx (goTypeDef col pos ctx t) := by
  unfold goTypeDef
  exact ⟨0, traceOpens_refl _, by simp [headPostB, postOpen], by simp, by simp⟩

theorem goAfterTypeName_ok (col : List String) (pos : Option String)
    (ctx : Ctx) (t : String) :
    resOK GoState.AfterTypeName ctx (goAfterTypeName col pos ctx t) := by
  unfold goAfterTypeName
  split_ifs <;> exact ⟨0, traceOpens_refl _, by simp [headPostB, postOpen], by simp, by simp [headPostB, postOpen]⟩

theorem goStructBody_ok (n : Int) (col : List String) (pos : Option String)
    (ctx : Ctx) (t : String) :
    resOK (GoState.StructBody n) ctx (goStructBody n col pos ctx t) := by
  refine ⟨0, ?_, ?_, ?_, ?_⟩
  · simpa [goStructBody] using traceOpens_refl ctx
  · by_cases hz : n + brDelta "\x7b" "\x7d" t = 0 <;>
      simp [goStructBody, hz, headPostB, postOpen]
  · simp [goStructBody]
  · simp [goStructBody]

theorem goInterfaceBody_ok (n : Int) (col : List String) (pos : Option String)
    (ctx : Ctx) (t : String) :
    resOK (GoState.InterfaceBody n) ctx (goInterfaceBody n col pos ctx t) := by
  refine ⟨0, ?_, ?_, ?_, ?_⟩
  · simpa [goInterfaceBody] using traceOpens_refl ctx
  · by_cases hz : n + brDelta "\x7b" "\x7d" t = 0 <;>
      simp [goInterfaceBody, hz, headPostB, postOpen]
  · simp [goInterfaceBody]
  · simp [goInterfaceBody]

theorem goTypeParams_ok (n : Int) (col : List String) (pos : Option String)
    (ctx : Ctx) (t : String) :
    resOK (GoState.TypeParams n) ctx (goTypeParams n col pos ctx t) := by
  refine ⟨0, ?_, ?_, ?_, ?_⟩
  · simpa [goTypeParams] using traceOpens_refl ctx
  · by_cases hz : n + brDelta "<" ">" t = 0 <;>
      simp [goTypeParams, hz, headPostB, postOpen]
  · simp [goTypeParams]
  · simp [goTypeParams]

theorem goMultiReturn_ok (n : Int) (col : List String) (pos : Option String)
    (ctx : Ctx) (t : String) :
    resOK (GoState.MultiReturn n) ctx (goMultiReturn n col pos ctx t) := by
  refine ⟨0, ?_, ?_, ?_, ?_⟩
  · simpa [goMultiReturn] using traceOpens_refl ctx
  · by_cases hz : n + brDelta "(" ")" t = 0 <;>
      simp [goMultiReturn, hz, headPostB, postOpen]
  · simp [goMultiReturn]
  · simp [goMultiReturn]

theorem goInterfaceRet_ok (n : Int) (col : List String) (pos : Option String)
    (ctx : Ctx) (t : String) :
    resOK (GoState.InterfaceRet n) ctx (goInterfaceRet n col pos ctx t) := by
  refine ⟨0, ?_, ?_, ?_, ?_⟩
  · simpa [goInterfaceRet] using traceOpens_refl ctx
  · by_cases hz : n + brDelta "\x7b" "\x7d" t = 0 <;>
      simp [goInterfaceRet, hz, headPostB, postOpen]
  · simp [goInterfaceRet]
  · simp [goInterfaceRet]

theorem goFunctionType_ok (n : Int) (col : List String) (pos : Option String)
    (ctx : Ctx) (t : String) :
    resOK (GoState.FunctionType n) ctx (goFunctionType n col pos ctx t) := by
  refine ⟨0, ?_, ?_, ?_, ?_⟩
  · simpa [goFunctionType] using traceOpens_refl ctx
  · by_cases hz : n + brDelta "(" ")" t = 0 <;>
      simp [goFunctionType, hz, headPostB, postOpen]
  · simp [goFunctionType]
  · simp [goFunctionType]

theorem goArrayRet_ok (n : Int) (col : List String) (pos : Option String)
    (ctx : Ctx) (t : String) :
    resOK (GoState.ArrayRet n) ctx (goArrayRet n col pos ctx t) := by
  refine ⟨0, ?_, ?_, ?_, ?_⟩
  · simpa [goArrayRet] using traceOpens_refl ctx
  · by_cases hz : n + brDelta "[" "]" t = 0 <;>
      simp [goArrayRet, hz, headPostB, postOpen]
  · simp [goArrayRet]
  · simp [goArrayRet]

theorem goFunctionDec_ok (n : Int) (col : List String) (pos : Option String)
    (ctx : Ctx) (t : String) :
    resOK (GoState.FunctionDec n) ctx (goFunctionDec n col pos ctx t) := by
  refine ⟨0, ?_, ?_, ?_, ?_⟩
  · by_cases hp : inParenChars t
    · simpa [goFunctionDec, hp] using traceOpens_refl ctx
    · simpa [goFunctionDec, hp] using traceOpens_parameter ctx t
  · by_cases hz : n + brDelta "(" ")" t = 0 <;>
      simp [goFunctionDec, hz, headPostB, postOpen]
  · simp [goFunctionDec]
  · simp [goFunctionDec]

theorem goFunctionImpl_ok (col : List String) (pos : Option String)
    (ctx : Ctx) (t : String) :
    resOK GoState.FunctionImpl ctx (goFunctionImpl col pos ctx t) := by
  unfold goFunctionImpl
  exact ⟨0, traceOpens_refl _, by simp [headPostB, postOpen], by simp,
    by simp [headPostB, postOpen]⟩

theorem goReadReturnType_ok (col : List String) (pos : Option String)
    (ctx : Ctx) (t : String) :
    resOK GoState.ReadReturnType ctx (goReadReturnType col pos ctx t) := by
  unfold goReadReturnType
  split_ifs <;>
    first
      | exact resOK_mono (goFunctionImpl_ok col pos ctx t) (by decide)
      | exact resOK_mono (goMultiReturn_ok 0 col pos ctx t) (by decide)
      | exact resOK_mono (goArrayRet_ok 0 col pos ctx t) (by decide)
      | exact ⟨0, traceOpens_refl _, by simp [headPostB, postOpen], by simp, by simp [headPostB, postOpen]⟩

theorem goAfterParams_ok (col : List String) (pos : Option String)
    (ctx : Ctx) (t : String) :
    resOK GoState.AfterParams ctx (goAfterParams col pos ctx t) := by
  unfold goAfterParams
  split_ifs <;>
    first
      | exact resOK_mono (goFunctionImpl_ok col pos ctx t) (by decide)
      | exact resOK_mono (goMultiReturn_ok 0 col pos ctx t) (by decide)
      | exact resOK_mono (goReadReturnType_ok col pos ctx t) (by decide)
      | exact ⟨0, traceOpens_refl _, by simp [headPostB, postOpen], by simp, by simp [headPostB, postOpen]⟩

theorem goExpectFuncImpl_ok (col : List String) (pos : Option String)
    (ctx : Ctx) (t : String) :
    resOK GoState.ExpectFuncImpl ctx (goExpectFuncImpl col pos ctx t) := by
  unfold goExpectFuncImpl
  split_ifs <;>
    first
      | exact resOK_mono (goFunctionImpl_ok col pos ctx t) (by decide)
      | exact ⟨0, traceOpens_refl _, by simp [headPostB, postOpen], by simp, by simp [headPostB, postOpen]⟩

theorem goExpectFuncDec_ok (col : List String) (pos : Option String)
    (ctx : Ctx) (t : String) :
    resOK GoState.ExpectFuncDec ctx (goExpectFuncDec col pos ctx t) := by
  unfold goExpectFuncDec
  split_ifs <;>
    first
      | exact resOK_mono (goFunctionDec_ok 0 col pos ctx t) (by decide)
      | exact resOK_mono (goAfterParams_ok col pos ctx t) (by decide)

theorem goAfterRecv_ok (col : List String) (pos : Option String)
    (ctx : Ctx) (t : String) :
    resOK GoState.AfterRecv ctx (goAfterRecv col pos ctx t) := by
  unfold goAfterRecv
  split_ifs
  · exact ⟨0, traceOpens_refl _, by simp [headPostB, postOpen], by simp,
      by simp [headPostB, postOpen]⟩
  · exact ⟨0, traceOpens_refl _, by simp [headPostB, postOpen], by simp,
      by simp [headPostB, postOpen]⟩
  · refine resOK_open_chain (goAfterParams_ok col pos _ t) ?_
    by_cases hps : pyStrip (pyJoin " " col) = ""
    · simpa [hps] using traceOpens_pushNewFunction ctx "(anonymous)"
    · have h1 := traceOpens_pushNewFunction ctx "(anonymous)"
      have h2 := traceOpens_parameter (ctx.pushNewFunction "(anonymous)")
        (pyStrip (pyJoin " " col))
      simpa [hps] using traceOpens_trans h1 h2

theorem goCheckParams_ok (col : List String) (pos : Option String)
    (ctx : Ctx) (t : String) :
    resOK GoState.CheckParams ctx (goCheckParams col pos ctx t) := by
  unfold goCheckParams
  split_ifs
  · refine resOK_open_chain (goFunctionDec_ok 0 col pos _ t) ?_
    have h1 := traceOpens_pushNewFunction ctx (pos.getD "")
    have h2 := traceOpens_setLongName (ctx.pushNewFunction (pos.getD ""))
      (if pyStrip (pyJoin " " col) ≠ "" then
        "(" ++ pyStrip (pyJoin " " col) ++ ")" ++ pos.getD "" else pos.getD "")
    simpa using traceOpens_trans h1 h2
  · refine resOK_open_chain (goAfterParams_ok [] pos _ t) ?_
    by_cases hps : pyStrip (pyJoin "" col) = ""
    · have h1 := traceOpens_pushNewFunction ctx "(anonymous)"
      have h2 := traceOpens_setLongName (ctx.pushNewFunction "(anonymous)")
        "(anonymous)"
      simpa [hps] using traceOpens_trans h1 h2
    · have h1 := traceOpens_pushNewFunction ctx "(anonymous)"
      have h2 := traceOpens_setLongName (ctx.pushNewFunction "(anonymous)")
        "(anonymous)"
      have h3 := traceOpens_parameter
        ((ctx.pushNewFunction "(anonymous)").setLongName "(anonymous)")
        (pyStrip (pyJoin "" col))
      simpa [hps] using traceOpens_trans (traceOpens_trans h1 h2) h3


theorem goAfterFunc_ok (col : List String) (pos : Option String)
    (ctx : Ctx) (t : String) :
    resOK GoState.AfterFunc ctx (goAfterFunc col pos ctx t) := by
  unfold goAfterFunc
  split_ifs
  · exact ⟨0, traceOpens_refl _, by simp [headPostB, postOpen], by simp,
      by simp [headPostB, postOpen]⟩
  · refine ⟨1, ?_, by simp [headPostB, postOpen], by simp,
      by simp [headPostB, postOpen]⟩
    have h1 := traceOpens_pushNewFunction ctx t
    have h2 := traceOpens_setLongName (ctx.pushNewFunction t) t
    simpa using traceOpens_trans h1 h2
  · refine resOK_open_chain (goAfterParams_ok col pos _ t) ?_
    have h1 := traceOpens_pushNewFunction ctx "(anonymous)"
    have h2 := traceOpens_setLongName (ctx.pushNewFunction "(anonymous)") "(anonymous)"
    simpa using traceOpens_trans h1 h2


theorem goGlobal_ok (col : List String) (pos : Option String)
    (ctx : Ctx) (t : String) :
    resOK GoState.Global ctx (goGlobal col pos ctx t) := by
  unfold goGlobal
  split_ifs <;> exact ⟨0, traceOpens_refl _, by simp [headPostB, postOpen], by simp, by simp [headPostB, postOpen]⟩

theorem goHandle_ok (st : GoState) (col : List String) (pos : Option String)
    (ctx : Ctx) (t : String) :
    resOK st ctx (goHandle st col pos ctx t) := by
  cases st with
  | Global => exact goGlobal_ok col pos ctx t
  | AfterFunc => exact goAfterFunc_ok col pos ctx t
  | CollectRecv => exact goCollectRecv_ok col pos ctx t
  | AfterRecv => exact goAfterRecv_ok col pos ctx t
  | CheckParams => exact goCheckParams_ok col pos ctx t
  | ExpectFuncDec => exact goExpectFuncDec_ok col pos ctx t
  | FunctionDec n => exact goFunctionDec_ok n col pos ctx t
  | AfterParams => exact goAfterParams_ok col pos ctx t
  | TypeParams n => exact goTypeParams_ok n col pos ctx t
  | MultiReturn n => exact goMultiReturn_ok n col pos ctx t
  | ReadReturnType => exact goReadReturnType_ok col pos ctx t
  | InterfaceRet n => exact goInterfaceRet_ok n col pos ctx t
  | FunctionType n => exact goFunctionType_ok n col pos ctx t
  | ArrayRet n => exact goArrayRet_ok n col pos ctx t
  | ExpectFuncImpl => exact goExpectFuncImpl_ok col pos ctx t
  | FunctionImpl => exact goFunctionImpl_ok col pos ctx t
  | TypeDef => exact goTypeDef_ok col pos ctx t
  | AfterTypeName => exact goAfterTypeName_ok col pos ctx t
  | StructBody n => exact goStructBody_ok n col pos ctx t
  | InterfaceBody n => exact goInterfaceBody_ok n col pos ctx t

theorem cbCount_cons (f : GoFrame) (rest : List GoFrame) :
    cbCount (f :: rest) = (if f.cb then 1 else 0) + cbCount rest := by
  simp [cbCount, List.countP_cons, Nat.add_comm]

theorem goInv_advance (c : GoConfig) (t : String) (h : goInv c) :
    goInv (goAdvance c t) := by
  obtain ⟨stack, ctx⟩ := c
  obtain ⟨hne, hok, k, hk, hle⟩ := h
  cases stack with
  | nil => exact absurd rfl hne
  | cons f rest =>
    obtain ⟨d, hto, hh, hp, hf⟩ := goHandle_ok f.st f.col f.pos ctx t
    have hk2 : countFrom 0 (goHandle f.st f.col f.pos ctx t).ctx.trace
        = some (k + d) := hto 0 k hk
    simp only [headPost, cbCount_cons] at hle
    cases hact : (goHandle f.st f.col f.pos ctx t).act with
    | none =>
      show goInv (goAdvance ⟨f :: rest, ctx⟩ t)
      simp only [goAdvance, hact]
      refine ⟨by simp, stackOK_replaceHead hok _ _ _, k + d, hk2, ?_⟩
      simp only [headPost, cbCount_cons]
      omega
    | pushPlain =>
      show goInv (goAdvance ⟨f :: rest, ctx⟩ t)
      simp only [goAdvance, hact]
      refine ⟨by simp, ⟨by simp, fun _ => hp hact, stackOK_replaceHead hok _ _ _⟩,
        k + d, hk2, ?_⟩
      have hg : headPostB GoState.Global = 0 := rfl
      have c0 : (if (false : Bool) = true then (1 : Nat) else 0) = 0 := by simp
      simp only [headPost, cbCount_cons, hg, c0]
      omega
    | pushFn =>
      show goInv (goAdvance ⟨f :: rest, ctx⟩ t)
      simp only [goAdvance, hact]
      refine ⟨by simp, ⟨fun _ => (hf hact).1, by simp, stackOK_replaceHead hok _ _ _⟩,
        k + d, hk2, ?_⟩
      have hfd := (hf hact).2
      have hg : headPostB GoState.Global = 0 := rfl
      have c1 : (if (true : Bool) = true then (1 : Nat) else 0) = 1 := by simp
      simp only [headPost, cbCount_cons, hg, c1, if_true]
      omega
    | pop =>
      show goInv (goAdvance ⟨f :: rest, ctx⟩ t)
      simp only [goAdvance, hact]
      cases rest with
      | nil =>
        refine ⟨by simp, trivial, k + d, hk2, ?_⟩
        simp only [headPost, cbCount_cons] at hle ⊢
        omega
      | cons g rest2 =>
        have hok1 : f.cb = true → g.st = GoState.FunctionImpl := hok.1
        have hok2 : f.cb = false → g.st = GoState.Global := hok.2.1
        have hok3 : stackOK (g :: rest2) := hok.2.2
        by_cases hcb : f.cb
        · simp only [hcb, if_true]
          have hge1 : 1 ≤ k := by
            simp only [hcb, if_true] at hle
            omega
          obtain ⟨m, hm⟩ : ∃ m, k + d = m + 1 := ⟨k + d - 1, by omega⟩
          refine ⟨by simp, stackOK_replaceHead hok3 _ _ _, m, ?_, ?_⟩
          · show countFrom 0 ((goHandle f.st f.col f.pos ctx t).ctx.trace
                ++ [Event.closeF]) = some m
            rw [countFrom_append, hk2, hm]
            simp [countFrom]
          · have hg : headPostB GoState.Global = 0 := rfl
            simp only [hcb, if_true, cbCount_cons] at hle
            simp only [headPost, cbCount_cons, hg]
            omega
        · simp only [hcb, if_false]
          have hgst := hok2 (by simpa using hcb)
          refine ⟨by simp, hok3, k + d, hk2, ?_⟩
          have hg : headPostB GoState.Global = 0 := rfl
          simp only [hcb, cbCount_cons] at hle
          simp only [Bool.false_eq_true, if_false, headPost, cbCount_cons, hgst, hg]
          omega


theorem goInv_init : goInv goInit := by
  refine ⟨by simp [goInit], trivial, 0, by simp [goInit, ctxInit, countFrom], ?_⟩
  simp [goInit, ctxInit, cbCount, headPost, headPostB, postOpen]

theorem goInv_runMany (ts : List String) (c : GoConfig) (h : goInv c) :
    goInv (goRunMany ts c) := by
  induction ts generalizing c with
  | nil => exact h
  | cons t ts ih => exact ih (goAdvance c t) (goInv_advance c t h)

theorem goAfterParams_ctx (col : List String) (pos : Option String)
    (ctx : Ctx) (t : String) : (goAfterParams col pos ctx t).ctx = ctx := by
  unfold goAfterParams goMultiReturn goFunctionImpl goReadReturnType goArrayRet
  split_ifs <;> rfl

theorem goAfterParams_act_ne_pop (col : List String) (pos : Option String)
    (ctx : Ctx) (t : String) : (goAfterParams col pos ctx t).act ≠ GoAct.pop := by
  unfold goAfterParams goMultiReturn goFunctionImpl goReadReturnType goArrayRet
  split_ifs <;> simp

theorem goAdvance_ctx (f : GoFrame) (rest : List GoFrame) (ctx : Ctx)
    (t : String) (h : (goHandle f.st f.col f.pos ctx t).act ≠ GoAct.pop) :
    (goAdvance ⟨f :: rest, ctx⟩ t).ctx = (goHandle f.st f.col f.pos ctx t).ctx := by
  simp only [goAdvance]
  cases hact : (goHandle f.st f.col f.pos ctx t).act with
  | none => simp only [hact]
  | pushPlain => simp only [hact]
  | pushFn => simp only [hact]
  | pop => exact absurd hact h

/-- C3 (Scenario B): feeding `func ( r *T ) Bar ( ) { }` to the Go grammar
produces exactly one function-opened event and one function-closed event,
and the closed function has qualified long name `(r *T)Bar` with zero
parameters recorded. -/
theorem go_scenarioB_receiver_method :
    (goRunMany ["func", "(", "r", "*T", ")", "Bar", "(", ")", "\x7b", "\x7d"]
        goInit).ctx.trace
      = [Event.openF "Bar", Event.closeF] ∧
    (goRunMany ["func", "(", "r", "*T", ")", "Bar", "(", ")", "\x7b", "\x7d"]
        goInit).ctx.closed
      = [⟨"Bar", "(r *T)Bar", []⟩] ∧
    ((goRunMany ["func", "(", "r", "*T", ")", "Bar", "(", ")", "\x7b", "\x7d"]
        goInit).ctx.closed.map FunctionRecord.paramCount) = [0] :=
  ⟨by decide, by decide, by decide⟩

/-- C5 (Scenario A): feeding `func Foo ( a int ) { }` to the Go grammar
produces exactly one function-opened event with name `Foo`, exactly one
formal parameter (the tokens `a`, `int` of one comma-free group), exactly
one function-closed event, and leaves the machine back in the global state
with a single machine on the stack and empty local buffers. -/
theorem go_scenarioA_named_function :
    (goRunMany ["func", "Foo", "(", "a", "int", ")", "\x7b", "\x7d"] goInit).ctx.trace
      = [Event.openF "Foo", Event.paramF "a", Event.paramF "int", Event.closeF] ∧
    (goRunMany ["func", "Foo", "(", "a", "int", ")", "\x7b", "\x7d"] goInit).ctx.closed
      = [⟨"Foo", "Foo", ["a", "int"]⟩] ∧
    ((goRunMany ["func", "Foo", "(", "a", "int", ")", "\x7b", "\x7d"]
        goInit).ctx.closed.map FunctionRecord.paramCount) = [1] ∧
    (goRunMany ["func", "Foo", "(", "a", "int", ")", "\x7b", "\x7d"] goInit).stack
      = [⟨GoState.Global, [], none, false⟩] :=
  ⟨by decide, by decide, by decide, by decide⟩

/-- C7 (Scenario C): feeding `type Foo struct { X int }` to the Go grammar
emits no event at all and returns the parser exactly to its initial
configuration (global state, single machine on the stack); hence any
following top-level tokens behave as if the struct declaration had not
been there. -/
theorem go_scenarioC_struct_no_functions :
    goRunMany ["type", "Foo", "struct", "\x7b", "X", "int", "\x7d"] goInit = goInit ∧
    ∀ rest : List String,
      goRunMany (["type", "Foo", "struct", "\x7b", "X", "int", "\x7d"] ++ rest) goInit
        = goRunMany rest goInit := by
  have h1 : List.foldl goAdvance goInit
      ["type", "Foo", "struct", "\x7b", "X", "int", "\x7d"] = goInit := by decide
  refine ⟨h1, fun rest => ?_⟩
  show List.foldl goAdvance goInit
      (["type", "Foo", "struct", "\x7b", "X", "int", "\x7d"] ++ rest)
    = List.foldl goAdvance goInit rest
  rw [List.foldl_append, h1]

/-- C4: for every token sequence the Go parser's trace is prefix-balanced
(its open/close surplus counter never underflows, so every function-closed
event closes the most recently opened still-open function — strict LIFO —
and no function is closed twice); and on Scenario D
`func ( x int ) { func ( y int ) { } }` the trace is two opens followed by
two closes whose stack matching pairs the first close with the second
(inner) open and the second close with the first (outer) open. -/
theorem go_close_lifo :
    (∀ ts : List String,
      (countFrom 0 (goRunMany ts goInit).ctx.trace).isSome = true) ∧
    (goRunMany
        ["func", "(", "x", "int", ")", "\x7b", "func", "(", "y", "int", ")",
         "\x7b", "\x7d", "\x7d"] goInit).ctx.trace
      = [Event.openF "(anonymous)", Event.paramF "x int",
         Event.openF "(anonymous)", Event.paramF "y int",
         Event.closeF, Event.closeF] ∧
    matchPairs
      (goRunMany
        ["func", "(", "x", "int", ")", "\x7b", "func", "(", "y", "int", ")",
         "\x7b", "\x7d", "\x7d"] goInit).ctx.trace
      = [(2, 4), (0, 5)] := by
  refine ⟨?_, by decide, by decide⟩
  intro ts
  obtain ⟨-, -, k, hk, -⟩ := goInv_runMany ts goInit goInv_init
  simp [hk]

/-- C10: a backtick token delivered in the Go machine's
after-receiver-or-parameters state leaves the whole configuration (state,
buffers, Context) unchanged; delivered in the base grammar's
function-name state it leaves the machine stack and the Context unchanged
(only the engine's uniform last-token record is updated, as it is for
every token). -/
theorem backtick_ignored :
    (∀ (col : List String) (pos : Option String) (cb : Bool)
        (rest : List GoFrame) (ctx : Ctx),
      goAdvance ⟨⟨GoState.AfterRecv, col, pos, cb⟩ :: rest, ctx⟩ "`"
        = ⟨⟨GoState.AfterRecv, col, pos, cb⟩ :: rest, ctx⟩) ∧
    (∀ (cb : Bool) (rest : List GlFrame) (ctx : Ctx) (lt : Option String),
      glAdvance ⟨⟨GlState.FunctionName, cb⟩ :: rest, ctx, lt⟩ "`"
        = ⟨⟨GlState.FunctionName, cb⟩ :: rest, ctx, some "`"⟩) := by
  constructor
  · intro col pos cb rest ctx
    simp [goAdvance, goHandle, goAfterRecv]
  · intro cb rest ctx lt
    simp [glAdvance, glHandle, glFunctionName]

/-- C1 counterexample: after `func ( r T )` the token `)` — which is
neither `(`, `{` nor the func keyword — does not become a tentative
method name as the claim states; the code opens an anonymous function
(one open event with the buffered tokens as its parameter) and no
possible-name is stored. -/
theorem go_afterReceiver_rparen_is_anonymous :
    (goRunMany ["func", "(", "r", "T", ")", ")"] goInit).ctx.trace
      = [Event.openF "(anonymous)", Event.paramF "r T"] ∧
    (goRunMany ["func", "(", "r", "T", ")", ")"] goInit).stack
      = [⟨GoState.ReadReturnType, ["r", "T"], none, false⟩] :=
  ⟨by decide, by decide⟩

/-- C2 counterexample: receiver-or-parameter collection has no depth
counter — after `func ( a ( b )` the first `)` has already ended
collection (state after-receiver, buffer `a ( b`) although that `)`
closes the nested `(`; continuing with the outer `)` then adopts the
anonymous interpretation with parameter `a ( b`, showing collection never
reached the matching parenthesis. -/
theorem go_collect_stops_at_nested_rparen :
    (goRunMany ["func", "(", "a", "(", "b", ")"] goInit).stack
      = [⟨GoState.AfterRecv, ["a", "(", "b"], none, false⟩] ∧
    (goRunMany ["func", "(", "a", "(", "b", ")", ")"] goInit).ctx.trace
      = [Event.openF "(anonymous)", Event.paramF "a ( b"] :=
  ⟨by decide, by decide⟩

/-- C2 amended: receiver-or-parameter buffering ends at the first `)`
token after the opening parenthesis: every earlier token — nested `(`
included — is buffered verbatim, with no depth counter. -/
theorem go_collect_first_rparen (ts : List String)
    (h : ∀ x ∈ ts, x ≠ ")") :
    ∀ (col : List String) (pos : Option String) (cb : Bool)
      (rest : List GoFrame) (ctx : Ctx),
      goRunMany (ts ++ [")"]) ⟨⟨GoState.CollectRecv, col, pos, cb⟩ :: rest, ctx⟩
        = ⟨⟨GoState.AfterRecv, col ++ ts, pos, cb⟩ :: rest, ctx⟩ := by
  induction ts with
  | nil =>
    intro col pos cb rest ctx
    simp [goRunMany, goAdvance, goHandle, goCollectRecv]
  | cons t ts ih =>
    intro col pos cb rest ctx
    have ht : t ≠ ")" := h t (by simp)
    have hts : ∀ x ∈ ts, x ≠ ")" := fun x hx => h x (by simp [hx])
    have hstep : goAdvance ⟨⟨GoState.CollectRecv, col, pos, cb⟩ :: rest, ctx⟩ t
        = ⟨⟨GoState.CollectRecv, col ++ [t], pos, cb⟩ :: rest, ctx⟩ := by
      simp [goAdvance, goHandle, goCollectRecv, ht]
    show goRunMany (ts ++ [")"])
        (goAdvance ⟨⟨GoState.CollectRecv, col, pos, cb⟩ :: rest, ctx⟩ t) = _
    rw [hstep]
    simpa using ih hts (col ++ [t]) pos cb rest ctx

/-- Witness for go_collect_first_rparen at a concrete nested-paren
buffer. -/
theorem go_collect_first_rparen_witness :
    goRunMany (["a", "(", "b"] ++ [")"])
        ⟨[⟨GoState.CollectRecv, [], none, false⟩], ctxInit⟩
      = ⟨[⟨GoState.AfterRecv, ["a", "(", "b"], none, false⟩], ctxInit⟩ :=
  go_collect_first_rparen ["a", "(", "b"] (by decide) [] none false [] ctxInit

theorem goAfterRecv_act_ne_pop (col : List String) (pos : Option String)
    (ctx : Ctx) (t : String) :
    (goAfterRecv col pos ctx t).act ≠ GoAct.pop := by
  unfold goAfterRecv
  split_ifs <;>
    first
      | exact goAfterParams_act_ne_pop _ _ _ _
      | simp

theorem goCheckParams_act_ne_pop (col : List String) (pos : Option String)
    (ctx : Ctx) (t : String) :
    (goCheckParams col pos ctx t).act ≠ GoAct.pop := by
  unfold goCheckParams goFunctionDec
  split_ifs <;>
    first
      | exact goAfterParams_act_ne_pop _ _ _ _
      | simp

theorem goAfterRecv_ctx_anon (col : List String) (pos : Option String)
    (ctx : Ctx) (t : String)
    (h : t = "(" ∨ t = "\x7b" ∨ t = "func" ∨ t = ")") :
    (goAfterRecv col pos ctx t).ctx
      = (if pyStrip (pyJoin " " col) = ""
         then ctx.pushNewFunction "(anonymous)"
         else (ctx.pushNewFunction "(anonymous)").parameter
           (pyStrip (pyJoin " " col))) := by
  rcases h with rfl | rfl | rfl | rfl <;>
    by_cases hps : pyStrip (pyJoin " " col) = "" <;>
      simp [goAfterRecv, hps, goAfterParams_ctx]

theorem goCheckParams_ctx_anon (col : List String) (pos : Option String)
    (ctx : Ctx) (u : String) (hu : u ≠ "(") :
    (goCheckParams col pos ctx u).ctx
      = (if pyStrip (pyJoin "" col) = ""
         then (ctx.pushNewFunction "(anonymous)").setLongName "(anonymous)"
         else ((ctx.pushNewFunction "(anonymous)").setLongName
             "(anonymous)").parameter (pyStrip (pyJoin "" col))) := by
  by_cases hps : pyStrip (pyJoin "" col) = "" <;>
    simp [goCheckParams, hu, hps, goAfterParams_ctx]

/-- C1 amended: once the receiver-or-parameter buffer is closed, the next
token decides interpretation — with the anonymous-function branch taken
for `(`, `{`, the func keyword AND ALSO `)` (and a backtick skipped, see
backtick handling); any other token is a tentative method name, confirmed
only by a following `(`, which opens a function whose long name is the
parenthesized space-joined receiver buffer prefixed to the name (the bare
name when the buffer strips to empty); any other following token falls
back to the anonymous interpretation with the buffer joined without
separator as its parameter. -/
theorem go_afterReceiver_dispatch (col : List String) (pos : Option String)
    (cb : Bool) (rest : List GoFrame) (ctx : Ctx) (t u : String) :
    (t = "(" ∨ t = "\x7b" ∨ t = "func" ∨ t = ")" →
      (goAdvance ⟨⟨GoState.AfterRecv, col, pos, cb⟩ :: rest, ctx⟩ t).ctx.trace
        = ctx.trace ++ Event.openF "(anonymous)" ::
            (if pyStrip (pyJoin " " col) = "" then []
             else [Event.paramF (pyStrip (pyJoin " " col))])) ∧
    (t ≠ "(" → t ≠ "\x7b" → t ≠ "func" → t ≠ ")" → t ≠ "`" →
      goAdvance ⟨⟨GoState.AfterRecv, col, pos, cb⟩ :: rest, ctx⟩ t
        = ⟨⟨GoState.CheckParams, col, some t, cb⟩ :: rest, ctx⟩) ∧
    (goAdvance ⟨⟨GoState.CheckParams, col, some t, cb⟩ :: rest, ctx⟩ "("
      = ⟨⟨GoState.FunctionDec 1, col, some t, cb⟩ :: rest,
          (ctx.pushNewFunction t).setLongName
            (if pyStrip (pyJoin " " col) = "" then t
             else "(" ++ pyStrip (pyJoin " " col) ++ ")" ++ t)⟩) ∧
    (u ≠ "(" →
      (goAdvance ⟨⟨GoState.CheckParams, col, some t, cb⟩ :: rest, ctx⟩ u).ctx.trace
        = ctx.trace ++ Event.openF "(anonymous)" ::
            (if pyStrip (pyJoin "" col) = "" then []
             else [Event.paramF (pyStrip (pyJoin "" col))])) := by
  refine ⟨?_, ?_, ?_, ?_⟩
  · intro ht
    rw [goAdvance_ctx ⟨GoState.AfterRecv, col, pos, cb⟩ rest ctx t
      (goAfterRecv_act_ne_pop col pos ctx t)]
    show (goAfterRecv col pos ctx t).ctx.trace = _
    rw [goAfterRecv_ctx_anon col pos ctx t ht]
    by_cases hps : pyStrip (pyJoin " " col) = "" <;>
      simp [hps, Ctx.pushNewFunction, Ctx.parameter]
  · intro h1 h2 h3 h4 h5
    simp [goAdvance, goHandle, goAfterRecv, h1, h2, h3, h4, h5]
  · by_cases hps : pyStrip (pyJoin " " col) = "" <;>
      simp [goAdvance, goHandle, goCheckParams, goFunctionDec, brDelta,
        inParenChars, hps]
  · intro hu
    rw [goAdvance_ctx ⟨GoState.CheckParams, col, some t, cb⟩ rest ctx u
      (goCheckParams_act_ne_pop col (some t) ctx u)]
    show (goCheckParams col (some t) ctx u).ctx.trace = _
    rw [goCheckParams_ctx_anon col (some t) ctx u hu]
    by_cases hps : pyStrip (pyJoin "" col) = "" <;>
      simp [hps, Ctx.pushNewFunction, Ctx.parameter, Ctx.setLongName]

/-- Witness for go_afterReceiver_dispatch: `Bar` after a closed receiver
buffer becomes a tentative method name. -/
theorem go_afterReceiver_dispatch_witness :
    goAdvance ⟨[⟨GoState.AfterRecv, ["r", "T"], none, false⟩], ctxInit⟩ "Bar"
      = ⟨[⟨GoState.CheckParams, ["r", "T"], some "Bar", false⟩], ctxInit⟩ :=
  (go_afterReceiver_dispatch ["r", "T"] none false [] ctxInit "Bar" ")").2.1
    (by decide) (by decide) (by decide) (by decide) (by decide)

/-- C9: when either anonymous-interpretation branch is adopted, the events
appended are exactly one open event followed by at most one parameter
event; the parameter (when the buffer is nonempty after stripping) is the
buffer joined with single spaces in the direct branch and joined with no
separator in the failed-method-name fallback branch; an empty buffer
yields no parameter event; the tentative name (pos) never appears in any
appended parameter. -/
theorem go_anonymous_single_param_event (col : List String)
    (pos : Option String) (ctx : Ctx) (t u : String) :
    (t = "(" ∨ t = "\x7b" ∨ t = "func" ∨ t = ")" →
      (goAfterRecv col pos ctx t).ctx.trace
        = ctx.trace ++ Event.openF "(anonymous)" ::
            (if pyStrip (pyJoin " " col) = "" then []
             else [Event.paramF (pyStrip (pyJoin " " col))])) ∧
    (u ≠ "(" →
      (goCheckParams col pos ctx u).ctx.trace
        = ctx.trace ++ Event.openF "(anonymous)" ::
            (if pyStrip (pyJoin "" col) = "" then []
             else [Event.paramF (pyStrip (pyJoin "" col))])) ∧
    (col = [] →
      (t = "(" ∨ t = "\x7b" ∨ t = "func" ∨ t = ")" →
        (goAfterRecv col pos ctx t).ctx.trace
          = ctx.trace ++ [Event.openF "(anonymous)"]) ∧
      (u ≠ "(" →
        (goCheckParams col pos ctx u).ctx.trace
          = ctx.trace ++ [Event.openF "(anonymous)"])) := by
  have p1 : t = "(" ∨ t = "\x7b" ∨ t = "func" ∨ t = ")" →
      (goAfterRecv col pos ctx t).ctx.trace
        = ctx.trace ++ Event.openF "(anonymous)" ::
            (if pyStrip (pyJoin " " col) = "" then []
             else [Event.paramF (pyStrip (pyJoin " " col))]) := by
    intro ht
    rw [goAfterRecv_ctx_anon col pos ctx t ht]
    by_cases hps : pyStrip (pyJoin " " col) = "" <;>
      simp [hps, Ctx.pushNewFunction, Ctx.parameter]
  have p2 : u ≠ "(" →
      (goCheckParams col pos ctx u).ctx.trace
        = ctx.trace ++ Event.openF "(anonymous)" ::
            (if pyStrip (pyJoin "" col) = "" then []
             else [Event.paramF (pyStrip (pyJoin "" col))]) := by
    intro hu
    rw [goCheckParams_ctx_anon col pos ctx u hu]
    by_cases hps : pyStrip (pyJoin "" col) = "" <;>
      simp [hps, Ctx.pushNewFunction, Ctx.parameter, Ctx.setLongName]
  refine ⟨p1, p2, ?_⟩
  rintro rfl
  constructor
  · intro ht
    simpa [pyJoin, pyStrip, pySpace] using p1 ht
  · intro hu
    simpa [pyJoin, pyStrip, pySpace] using p2 hu

/-- Witness for go_anonymous_single_param_event: direct anonymous branch
with a two-token buffer yields one space-joined parameter event. -/
theorem go_anonymous_single_param_event_witness :
    (goAfterRecv ["r", "T"] none ctxInit "\x7b").ctx.trace
      = [Event.openF "(anonymous)", Event.paramF "r T"] :=
  ((go_anonymous_single_param_event ["r", "T"] none ctxInit "\x7b" ")").1
    (Or.inr (Or.inl rfl))).trans (by decide)

theorem glFunctionDec_params_run (ts : List String)
    (h : ∀ x ∈ ts, x ≠ "(" ∧ x ≠ ")" ∧ x ≠ "" ∧ x ≠ "()") :
    ∀ (cb : Bool) (rest : List GlFrame) (ctx : Ctx) (lt : Option String),
      glRunMany (ts ++ [")"]) ⟨⟨GlState.FunctionDec 1, cb⟩ :: rest, ctx, lt⟩
        = ⟨⟨GlState.ExpectFuncImpl, cb⟩ :: rest,
            ts.foldl Ctx.parameter ctx, some ")"⟩ := by
  induction ts with
  | nil =>
    intro cb rest ctx lt
    simp [glRunMany, glAdvance, glHandle, glFunctionDec, brDelta, inParenChars]
  | cons x xs ih =>
    intro cb rest ctx lt
    obtain ⟨hx1, hx2, hx3, hx4⟩ := h x (by simp)
    have hxs : ∀ y ∈ xs, y ≠ "(" ∧ y ≠ ")" ∧ y ≠ "" ∧ y ≠ "()" :=
      fun y hy => h y (by simp [hy])
    have hstep : glAdvance ⟨⟨GlState.FunctionDec 1, cb⟩ :: rest, ctx, lt⟩ x
        = ⟨⟨GlState.FunctionDec 1, cb⟩ :: rest, ctx.parameter x, some x⟩ := by
      simp [glAdvance, glHandle, glFunctionDec, brDelta, inParenChars,
        hx1, hx2, hx3, hx4]
    show glRunMany (xs ++ [")"])
        (glAdvance ⟨⟨GlState.FunctionDec 1, cb⟩ :: rest, ctx, lt⟩ x) = _
    rw [hstep]
    simpa using ih hxs cb rest (ctx.parameter x) (some x)

theorem glMemberFunction_run (ts : List String)
    (h : ∀ x ∈ ts, x ≠ "(" ∧ x ≠ ")") :
    ∀ (cb : Bool) (rest : List GlFrame) (ctx : Ctx) (lt : Option String),
      glRunMany (ts ++ [")"]) ⟨⟨GlState.MemberFunction 1, cb⟩ :: rest, ctx, lt⟩
        = ⟨⟨GlState.FunctionName, cb⟩ :: rest,
            (ts ++ [")"]).foldl Ctx.addToLongFunctionName ctx, some ")"⟩ := by
  induction ts with
  | nil =>
    intro cb rest ctx lt
    simp [glRunMany, glAdvance, glHandle, glMemberFunction, brDelta]
  | cons x xs ih =>
    intro cb rest ctx lt
    obtain ⟨hx1, hx2⟩ := h x (by simp)
    have hxs : ∀ y ∈ xs, y ≠ "(" ∧ y ≠ ")" := fun y hy => h y (by simp [hy])
    have hstep : glAdvance ⟨⟨GlState.MemberFunction 1, cb⟩ :: rest, ctx, lt⟩ x
        = ⟨⟨GlState.MemberFunction 1, cb⟩ :: rest,
            ctx.addToLongFunctionName x, some x⟩ := by
      simp [glAdvance, glHandle, glMemberFunction, brDelta, hx1, hx2]
    show glRunMany (xs ++ [")"])
        (glAdvance ⟨⟨GlState.MemberFunction 1, cb⟩ :: rest, ctx, lt⟩ x) = _
    rw [hstep]
    simpa using ih hxs cb rest (ctx.addToLongFunctionName x) (some x)

/-- C6: in the base Go-family grammar, a `(` in the function-name state is
disambiguated by the Context's function stack: when the enclosing
suspended function is not the global sentinel, the token is re-delivered
to the parameter-list state (whose balanced run records the inner tokens
as parameters and ends expecting the body); otherwise it starts a
receiver clause re-delivered to the member-function state, whose balanced
run appends every token (brackets included) to the current function's
long name and ends back in the function-name state, resuming name
collection. -/
theorem golike_paren_disambiguation :
    (∀ (cb : Bool) (rest : List GlFrame) (ctx : Ctx) (lt : Option String)
        (r : FunctionRecord) (tl : List FunctionRecord),
      ctx.stacked = r :: tl → r.name ≠ "*global*" →
      glAdvance ⟨⟨GlState.FunctionName, cb⟩ :: rest, ctx, lt⟩ "("
        = ⟨⟨GlState.FunctionDec 1, cb⟩ :: rest, ctx, some "("⟩) ∧
    (∀ (ts : List String),
      (∀ x ∈ ts, x ≠ "(" ∧ x ≠ ")" ∧ x ≠ "" ∧ x ≠ "()") →
      ∀ (cb : Bool) (rest : List GlFrame) (ctx : Ctx) (lt : Option String),
      glRunMany (ts ++ [")"]) ⟨⟨GlState.FunctionDec 1, cb⟩ :: rest, ctx, lt⟩
        = ⟨⟨GlState.ExpectFuncImpl, cb⟩ :: rest,
            ts.foldl Ctx.parameter ctx, some ")"⟩) ∧
    (∀ (cb : Bool) (rest : List GlFrame) (ctx : Ctx) (lt : Option String),
      (ctx.stacked = [] ∨
        ∃ r tl, ctx.stacked = r :: tl ∧ r.name = "*global*") →
      glAdvance ⟨⟨GlState.FunctionName, cb⟩ :: rest, ctx, lt⟩ "("
        = ⟨⟨GlState.MemberFunction 1, cb⟩ :: rest,
            ctx.addToLongFunctionName "(", some "("⟩) ∧
    (∀ (ts : List String), (∀ x ∈ ts, x ≠ "(" ∧ x ≠ ")") →
      ∀ (cb : Bool) (rest : List GlFrame) (ctx : Ctx) (lt : Option String),
      glRunMany (ts ++ [")"]) ⟨⟨GlState.MemberFunction 1, cb⟩ :: rest, ctx, lt⟩
        = ⟨⟨GlState.FunctionName, cb⟩ :: rest,
            (ts ++ [")"]).foldl Ctx.addToLongFunctionName ctx, some ")"⟩) := by
  refine ⟨?_, glFunctionDec_params_run, ?_, glMemberFunction_run⟩
  · intro cb rest ctx lt r tl hs hn
    simp [glAdvance, glHandle, glFunctionName, hs, hn, glFunctionDec,
      brDelta, inParenChars]
  · intro cb rest ctx lt hs
    rcases hs with hs | ⟨r, tl, hs, hn⟩
    · simp [glAdvance, glHandle, glFunctionName, hs, glMemberFunction, brDelta]
    · simp [glAdvance, glHandle, glFunctionName, hs, hn, glMemberFunction,
        brDelta]

/-- Witness for golike_paren_disambiguation: with a non-global enclosing
function the parenthesis starts an anonymous nested function's parameter
list. -/
theorem golike_paren_disambiguation_witness :
    glAdvance ⟨[⟨GlState.FunctionName, false⟩],
        ⟨⟨"", "", []⟩, [⟨"outer", "outer", []⟩], [], []⟩, none⟩ "("
      = ⟨[⟨GlState.FunctionDec 1, false⟩],
          ⟨⟨"", "", []⟩, [⟨"outer", "outer", []⟩], [], []⟩, some "("⟩ :=
  golike_paren_disambiguation.1 false [] _ none ⟨"outer", "outer", []⟩ []
    rfl (by decide)

theorem javaRun_dottedTail {σ : Type} [DecidableEq σ] (glob : σ)
    (bstep : σ → String → σ × List Event) (parts : List String)
    (evs : List Event) :
    javaRunMany glob bstep (dottedTail parts) (JState.postdec, evs)
      = (JState.postdec, evs) := by
  induction parts with
  | nil => rfl
  | cons p ps ih =>
    show javaRunMany glob bstep ("." :: p :: dottedTail ps)
        (JState.postdec, evs) = _
    simp [javaRunMany, javaStep]
    exact ih

/-- C8: a dotted annotation `@ w . p1 . p2 ...` delivered from the Java
global state is consumed entirely with no event emitted and without
touching the abstract C-family base grammar, ending in the post-decorator
state; the first non-dot token there is handled exactly as the global
state would handle it (re-delivery); and in any base state other than the
global one an `@` token is not intercepted but dispatched to the base
grammar. -/
theorem java_annotation_interception (σ : Type) [DecidableEq σ] (glob : σ)
    (bstep : σ → String → σ × List Event) (w : String)
    (parts : List String) (u : String) (s : σ) :
    (javaRunMany glob bstep ("@" :: w :: dottedTail parts)
        (JState.base glob, []) = (JState.postdec, [])) ∧
    (u ≠ "." →
      javaStep glob bstep JState.postdec u
        = javaStep glob bstep (JState.base glob) u) ∧
    (s ≠ glob →
      javaStep glob bstep (JState.base s) "@"
        = (JState.base (bstep s "@").1, (bstep s "@").2)) := by
  refine ⟨?_, ?_, ?_⟩
  · have s1 : javaStep glob bstep (JState.base glob) "@" = (JState.dec, []) := by
      simp [javaStep]
    have s2 : javaStep glob bstep JState.dec w = (JState.postdec, []) := rfl
    show javaRunMany glob bstep ("@" :: w :: dottedTail parts)
        (JState.base glob, []) = _
    simp [javaRunMany, s1, s2]
    exact javaRun_dottedTail glob bstep parts []
  · intro hu
    by_cases hat : u = "@" <;> simp [javaStep, hu, hat]
  · intro hs
    simp [javaStep, hs]

/-- Witness for java_annotation_interception: after an annotation, a
non-dot token is re-delivered to the global state, and a non-global base
state does not intercept the at-sign. -/
theorem java_annotation_interception_witness :
    (javaStep (0 : Nat) (fun n t => (n + 1, [Event.paramF t]))
        JState.postdec "f"
      = javaStep (0 : Nat) (fun n t => (n + 1, [Event.paramF t]))
          (JState.base 0) "f") ∧
    (javaStep (0 : Nat) (fun n t => (n + 1, [Event.paramF t]))
        (JState.base 1) "@"
      = (JState.base ((fun n t => (n + 1, [Event.paramF t])) 1 "@").1,
          ((fun (n : Nat) (t : String) => (n + 1, [Event.paramF t])) 1 "@").2)) :=
  ⟨(java_annotation_interception Nat 0 (fun n t => (n + 1, [Event.paramF t]))
      "Name" ["x"] "f" 1).2.1 (by decide),
   (java_annotation_interception Nat 0 (fun n t => (n + 1, [Event.paramF t]))
      "Name" ["x"] "f" 1).2.2 (by decide)⟩

end Lizard
